import Mathlib

/-!
# The diff example (`_examples/diff/main.go`)

A shallow embedding of the example program: `createTestRepo` builds a
throwaway repository in a temporary directory, commits two files, then edits
the working tree; `main` opens the repository and prints the diff.

The program is a straight line of calls into the operating system and the
version-control library.  Those calls are embedded as transitions on an
explicit `World`; whether a call succeeds is chosen by the environment
(`Env.fail`, and `Env.removeAll` for the cleanup call whose result the
program discards), and the order in which a `range` loop visits a map is chosen
by the environment as well (`Env.flipTestFiles`, `Env.flipModifiedFiles`).
-/

namespace DiffExample

/-! ## Errors -/

/-- Go `error` values: an error returned by a library call, or an error made
by `fmt.Errorf("<prefix>: %w", cause)`. -/
inductive GoError where
  | lib (msg : String)
  | wrap (pfx : String) (cause : GoError)
  deriving DecidableEq, Repr

/-- The `Error()` method: `%w` formats the cause with its own message. -/
def GoError.Error : GoError → String
  | .lib msg => msg
  | .wrap pfx cause => pfx ++ ": " ++ cause.Error

/-- The `Unwrap()` method (`errors.Unwrap`): the cause of a wrapped error. -/
def GoError.Unwrap : GoError → Option GoError
  | .lib _ => none
  | .wrap _ cause => some cause

/-- Embedding of `fmt.Errorf(pfx + ": %w", err)`. -/
def fmt.Errorf (pfx : String) (err : GoError) : GoError :=
  .wrap pfx err

/-! ## Observable operations -/

/-- The calls the program makes, as they are recorded in the trace. -/
inductive Op where
  | TempDir (dir pattern : String)
  | PlainInit (path : String) (isBare : Bool)
  | Worktree (repoDir : String)
  | WriteFile (path content : String) (perm : Nat)
  | Add (worktreeDir name : String)
  | Commit (worktreeDir msg authorName authorEmail : String)
  | Remove (path : String)
  | RemoveAll (path : String)
  | PlainOpen (path : String)
  | PrintDiff (worktreeDir : String) (detectBinary : Bool)
  | Printf (out : String)
  | Exit (code : Nat)
  deriving DecidableEq, Repr

/-! ## The world -/

/-- A snapshot: file name ↦ content. -/
abbrev Snapshot := List (String × String)

/-- State of the repository: where it lives, its staging area (kept sorted by
path, as the index is) and the trees of the commits made so far. -/
structure Repo where
  dir : String
  index : Snapshot
  commits : List Snapshot
  deriving DecidableEq, Repr

/-- Everything the program can observe or change. -/
structure World where
  /-- number of library calls made so far whose error the program checks -/
  calls : Nat
  /-- temporary directories that exist -/
  dirs : List String
  /-- regular files outside repository metadata: full path ↦ content -/
  files : List (String × String)
  /-- the repository created by the program, if any -/
  repo : Option Repo
  /-- every call made so far, oldest first -/
  trace : List Op
  /-- exit status once the process has terminated -/
  exited : Option Nat
  deriving DecidableEq, Repr

/-- The world a run starts in, with `fs` the regular files that already exist. -/
def World.start (fs : List (String × String)) : World :=
  { calls := 0, dirs := [], files := fs, repo := none, trace := [], exited := none }

/-- The environment of a run: the name `ioutil.TempDir` picks, the outcome of
the k-th library call whose error the program checks (`none` = success), the
outcome of `os.RemoveAll`, which a run calls at most once and whose error the
program discards, and the order in which the two `range` loops visit their
maps. -/
structure Env where
  tmp : String
  fail : Nat → Option GoError
  removeAll : Option GoError
  flipTestFiles : Bool
  flipModifiedFiles : Bool

/-- Handle returned by `git.PlainInit` / `git.PlainOpen`. -/
structure Repository where
  dir : String
  deriving DecidableEq, Repr

/-- Handle returned by `Repository.Worktree`. -/
structure Worktree where
  dir : String
  deriving DecidableEq, Repr

/-! ## Paths and finite maps -/

/-- Embedding of `filepath.Join(dir, name)` for a clean, non-empty `dir` and a
separator-free `name`, which is all the program passes. -/
def filepath.Join (dir name : String) : String :=
  dir ++ "/" ++ name

/-- Remove the prefix `p` from `l`, if `l` starts with it. -/
def dropLeading : List Char → List Char → Option (List Char)
  | [], l => some l
  | _ :: _, [] => none
  | a :: p, b :: l => if a = b then dropLeading p l else none

/-- Name of `path` relative to `dir`, when `path` lies below `dir`. -/
def relName (dir path : String) : Option String :=
  (dropLeading (dir.data ++ ['/']) path.data).map String.mk

/-- Value stored under key `k`. -/
def lookup (k : String) : List (String × String) → Option String
  | [] => none
  | (k', v) :: rest => if k' = k then some v else lookup k rest

/-- Create or overwrite: the value under `k` becomes `v`. -/
def upsert (k v : String) : List (String × String) → List (String × String)
  | [] => [(k, v)]
  | (k', v') :: rest => if k' = k then (k, v) :: rest else (k', v') :: upsert k v rest

/-- Delete the entry under `k`. -/
def remove (k : String) (m : List (String × String)) : List (String × String) :=
  m.filter (fun e => e.1 ≠ k)

/-- Lexicographic order on character sequences, by code point. -/
def ltChars : List Char → List Char → Bool
  | _, [] => false
  | [], _ :: _ => true
  | a :: as, b :: bs =>
    if a.toNat < b.toNat then true
    else if a = b then ltChars as bs
    else false

/-- Lexicographic order on paths. -/
def pathLt (a b : String) : Bool :=
  ltChars a.data b.data

/-- Insert into a list sorted by key, replacing an entry with the same key. -/
def insertSorted (k v : String) : List (String × String) → List (String × String)
  | [] => [(k, v)]
  | (k', v') :: rest =>
    if pathLt k k' then (k, v) :: (k', v') :: rest
    else if k = k' then (k, v) :: rest
    else (k', v') :: insertSorted k v rest

/-- Sort a finite map by key. -/
def sortByPath (m : List (String × String)) : List (String × String) :=
  m.foldr (fun e acc => insertSorted e.1 e.2 acc) []

/-- The working tree below `dir`: relative name ↦ content, sorted by name. -/
def worktreeSnapshot (dir : String) (files : List (String × String)) : Snapshot :=
  sortByPath (files.filterMap (fun e => (relName dir e.1).map (fun n => (n, e.2))))

/-- Go leaves the iteration order of a map unspecified; for a map of two
entries the environment picks one of the two orders. -/
def rangeOrder (flip : Bool) (m : List (String × String)) : List (String × String) :=
  if flip then m.reverse else m

/-! ## Library calls -/

/-- A fallible library call: it is recorded, and the environment decides
whether it returns an error. -/
def libCall (env : Env) (op : Op) (w : World) : Option GoError × World :=
  (env.fail w.calls, { w with calls := w.calls + 1, trace := w.trace ++ [op] })

/-- Embedding of `ioutil.TempDir(dir, pattern)`: on success a new, empty
directory exists and its name is returned. -/
def ioutil.TempDir (env : Env) (dir pattern : String) (w : World) :
    (String × Option GoError) × World :=
  match libCall env (.TempDir dir pattern) w with
  | (some err, w) => (("", some err), w)
  | (none, w) => ((env.tmp, none), { w with dirs := env.tmp :: w.dirs })

/-- Embedding of `git.PlainInit(path, isBare)`: on success an empty
repository lives at `path`. -/
def git.PlainInit (env : Env) (path : String) (isBare : Bool) (w : World) :
    (Repository × Option GoError) × World :=
  match libCall env (.PlainInit path isBare) w with
  | (some err, w) => ((⟨path⟩, some err), w)
  | (none, w) => ((⟨path⟩, none), { w with repo := some ⟨path, [], []⟩ })

/-- Embedding of `git.PlainOpen(path)`. -/
def git.PlainOpen (env : Env) (path : String) (w : World) :
    (Repository × Option GoError) × World :=
  match libCall env (.PlainOpen path) w with
  | (some err, w) => ((⟨path⟩, some err), w)
  | (none, w) => ((⟨path⟩, none), w)

/-- Embedding of `repo.Worktree()`. -/
def Repository.Worktree (env : Env) (r : Repository) (w : World) :
    (Worktree × Option GoError) × World :=
  match libCall env (.Worktree r.dir) w with
  | (some err, w) => ((⟨r.dir⟩, some err), w)
  | (none, w) => ((⟨r.dir⟩, none), w)

/-- Embedding of `ioutil.WriteFile(path, content, perm)`: on success the file
holds exactly `content`. -/
def ioutil.WriteFile (env : Env) (path content : String) (perm : Nat) (w : World) :
    Option GoError × World :=
  match libCall env (.WriteFile path content perm) w with
  | (some err, w) => (some err, w)
  | (none, w) => (none, { w with files := upsert path content w.files })

/-- Stage the current state of `name`: its content, or its absence. -/
def stage (name : String) (content : Option String) (index : Snapshot) : Snapshot :=
  match content with
  | some c => insertSorted name c index
  | none => remove name index

/-- Embedding of `w.Add(name)`: on success the index entry of `name` is the
file as it is in the working tree now. -/
def Worktree.Add (env : Env) (wt : Worktree) (name : String) (w : World) :
    Option GoError × World :=
  match libCall env (.Add wt.dir name) w with
  | (some err, w) => (some err, w)
  | (none, w) =>
    (none, { w with repo := w.repo.map (fun r =>
      if r.dir = wt.dir then
        { r with index := stage name (lookup (filepath.Join wt.dir name) w.files) r.index }
      else r) })

/-- Embedding of `w.Commit(msg, opts)`: on success the index becomes the tree
of a new commit.  The time stamp of the signature is not modelled. -/
def Worktree.Commit (env : Env) (wt : Worktree) (msg authorName authorEmail : String)
    (w : World) : Option GoError × World :=
  match libCall env (.Commit wt.dir msg authorName authorEmail) w with
  | (some err, w) => (some err, w)
  | (none, w) =>
    (none, { w with repo := w.repo.map (fun r =>
      if r.dir = wt.dir then { r with commits := r.commits ++ [r.index] } else r) })

/-- Embedding of `os.Remove(path)`: on success the file is gone. -/
def os.Remove (env : Env) (path : String) (w : World) : Option GoError × World :=
  match libCall env (.Remove path) w with
  | (some err, w) => (some err, w)
  | (none, w) => (none, { w with files := remove path w.files })

/-- Tell whether a file lies outside the directory `dir`. -/
def outside (dir : String) (e : String × String) : Bool :=
  (relName dir e.1).isNone

/-- The world without the directory `path`, the files below it and a
repository stored in it. -/
def removeTree (path : String) (w : World) : World :=
  { w with
    dirs := w.dirs.filter (fun d => d ≠ path)
    files := w.files.filter (outside path)
    repo := w.repo.bind (fun r => if r.dir = path then none else some r) }

/-- Embedding of `os.RemoveAll(path)`: the call is recorded and the
environment decides whether it returns an error.  On success the directory,
the files below it and a repository stored in it are gone.  On failure
something below the directory could not be removed, so the directory is
still there; what had been removed before the failure is not modelled. -/
def os.RemoveAll (env : Env) (path : String) (w : World) : Option GoError × World :=
  match env.removeAll with
  | some err => (some err, { w with trace := w.trace ++ [.RemoveAll path] })
  | none => (none, removeTree path { w with trace := w.trace ++ [.RemoveAll path] })

/-- Embedding of `w.PrintDiff(opts)`; what it prints is the library's business. -/
def Worktree.PrintDiff (env : Env) (wt : Worktree) (detectBinary : Bool) (w : World) :
    Option GoError × World :=
  libCall env (.PrintDiff wt.dir detectBinary) w

/-- Embedding of `fmt.Printf` after formatting: the text goes to standard output. -/
def fmt.Printf (out : String) (w : World) : World :=
  { w with trace := w.trace ++ [.Printf out] }

/-- Embedding of `os.Exit(code)`: the process terminates at once; deferred
calls are not run. -/
def os.Exit (code : Nat) (w : World) : World :=
  { w with trace := w.trace ++ [.Exit code], exited := some code }

/-! ## The program -/

/-- The map literal `testFiles`. -/
def testFiles : List (String × String) :=
  [("file1.txt", "Original content\nfor file1\n"),
   ("file2.txt", "Original content\nfor file2\n")]

/-- The map literal `modifiedFiles`. -/
def modifiedFiles : List (String × String) :=
  [("file1.txt", "Modified content\nfor file1\nwith new line\n"),
   ("file3.txt", "New file content\n")]

/-- The loop `for name, content := range testFiles`, with its early returns. -/
def writeAndAdd (env : Env) (dir : String) (wt : Worktree) :
    List (String × String) → World → Option GoError × World
  | [], w => (none, w)
  | (name, content) :: rest, w =>
    let path := filepath.Join dir name
    match ioutil.WriteFile env path content 0o644 w with
    | (some err, w) =>
      let w := (os.RemoveAll env dir w).2
      (some (fmt.Errorf "write file" err), w)
    | (none, w) =>
      match Worktree.Add env wt name w with
      | (some err, w) =>
        let w := (os.RemoveAll env dir w).2
        (some (fmt.Errorf "git add" err), w)
      | (none, w) => writeAndAdd env dir wt rest w

/-- The loop `for name, content := range modifiedFiles`, with its early return. -/
def writeModified (env : Env) (dir : String) :
    List (String × String) → World → Option GoError × World
  | [], w => (none, w)
  | (name, content) :: rest, w =>
    let path := filepath.Join dir name
    match ioutil.WriteFile env path content 0o644 w with
    | (some err, w) =>
      let w := (os.RemoveAll env dir w).2
      (some (fmt.Errorf "write modified file" err), w)
    | (none, w) => writeModified env dir rest w

/-- Embedding of `createTestRepo`: the returned path, the returned error and
the world it leaves.  The statement `os.RemoveAll(dir)` discards the error of
the call. -/
def createTestRepo (env : Env) (w : World) : (String × Option GoError) × World :=
  match ioutil.TempDir env "" "git-test-*" w with
  | ((_, some err), w) => (("", some (fmt.Errorf "create temp dir" err)), w)
  | ((dir, none), w) =>
    match git.PlainInit env dir false w with
    | ((_, some err), w) =>
      let w := (os.RemoveAll env dir w).2
      (("", some (fmt.Errorf "init repo" err)), w)
    | ((repo, none), w) =>
      match repo.Worktree env w with
      | ((_, some err), w) =>
        let w := (os.RemoveAll env dir w).2
        (("", some (fmt.Errorf "get worktree" err)), w)
      | ((wt, none), w) =>
        match writeAndAdd env dir wt (rangeOrder env.flipTestFiles testFiles) w with
        | (some err, w) => (("", some err), w)
        | (none, w) =>
          match wt.Commit env "Initial commit" "Test Author" "test@example.com" w with
          | (some err, w) =>
            let w := (os.RemoveAll env dir w).2
            (("", some (fmt.Errorf "create commit" err)), w)
          | (none, w) =>
            match writeModified env dir (rangeOrder env.flipModifiedFiles modifiedFiles) w with
            | (some err, w) => (("", some err), w)
            | (none, w) =>
              match os.Remove env (filepath.Join dir "file2.txt") w with
              | (some err, w) =>
                let w := (os.RemoveAll env dir w).2
                (("", some (fmt.Errorf "remove file" err)), w)
              | (none, w) => ((dir, none), w)

/-- Run the deferred calls of a returning function, last registered first. -/
def runDeferred : List (World → World) → World → World
  | [], w => w
  | f :: rest, w => runDeferred rest (f w)

/-- Embedding of `main`.  `deferred` is the stack of calls registered with
`defer`; it is run when `main` returns, and `os.Exit` ends the run without
touching it.  A `main` that returns ends the process with status 0. -/
def main (env : Env) (w : World) : World :=
  match createTestRepo env w with
  | ((_, some err), w) =>
    let w := fmt.Printf ("创建测试仓库失败: " ++ err.Error ++ "\n") w
    os.Exit 1 w
  | ((dir, none), w) =>
    let deferred : List (World → World) := [fun w => (os.RemoveAll env dir w).2]
    match git.PlainOpen env dir w with
    | ((_, some err), w) =>
      let w := fmt.Printf ("无法打开仓库: " ++ err.Error ++ "\n") w
      os.Exit 1 w
    | ((repo, none), w) =>
      match repo.Worktree env w with
      | ((_, some err), w) =>
        let w := fmt.Printf ("无法获取工作区: " ++ err.Error ++ "\n") w
        os.Exit 1 w
      | ((wt, none), w) =>
        match wt.PrintDiff env true w with
        | (some err, w) =>
          let w := fmt.Printf ("打印差异失败: " ++ err.Error ++ "\n") w
          os.Exit 1 w
        | (none, w) =>
          let w := runDeferred deferred w
          { w with exited := some 0 }

/-! ## Reference values used in the statements -/

/-- The calls of a run of `createTestRepo` in which nothing fails, in order. -/
def setupCalls (env : Env) : List Op :=
  [.TempDir "" "git-test-*", .PlainInit env.tmp false, .Worktree env.tmp]
  ++ (rangeOrder env.flipTestFiles testFiles).flatMap
      (fun e => [.WriteFile (filepath.Join env.tmp e.1) e.2 0o644, .Add env.tmp e.1])
  ++ [.Commit env.tmp "Initial commit" "Test Author" "test@example.com"]
  ++ (rangeOrder env.flipModifiedFiles modifiedFiles).map
      (fun e => .WriteFile (filepath.Join env.tmp e.1) e.2 0o644)
  ++ [.Remove (filepath.Join env.tmp "file2.txt")]

/-- The message prefix `createTestRepo` puts on a failure of call `op`;
`committed` tells whether the commit has been made by then. -/
def errorPrefix (committed : Bool) : Op → String
  | .TempDir _ _ => "create temp dir"
  | .PlainInit _ _ => "init repo"
  | .Worktree _ => "get worktree"
  | .WriteFile _ _ _ => if committed then "write modified file" else "write file"
  | .Add _ _ => "git add"
  | .Commit _ _ _ _ => "create commit"
  | .Remove _ => "remove file"
  | _ => ""

/-- The message prefix `createTestRepo` puts on a failure of its k-th call. -/
def stepPrefix : Nat → String
  | 0 => "create temp dir"
  | 1 => "init repo"
  | 2 => "get worktree"
  | 3 => "write file"
  | 4 => "git add"
  | 5 => "write file"
  | 6 => "git add"
  | 7 => "create commit"
  | 8 => "write modified file"
  | 9 => "write modified file"
  | _ => "remove file"

/-- Write every entry of `m` below `dir`, first entry first. -/
def writeAll (dir : String) (m : List (String × String)) (files : List (String × String)) :
    List (String × String) :=
  m.foldl (fun acc e => upsert (filepath.Join dir e.1) e.2 acc) files

/-- The files after a run of `createTestRepo` in which nothing fails. -/
def filesAfterSetup (env : Env) (fs : List (String × String)) : List (String × String) :=
  remove (filepath.Join env.tmp "file2.txt")
    (writeAll env.tmp (rangeOrder env.flipModifiedFiles modifiedFiles)
      (writeAll env.tmp (rangeOrder env.flipTestFiles testFiles) fs))

/-- The same environment with every call succeeding. -/
def Env.allOk (env : Env) : Env :=
  { env with fail := fun _ => none }

/-- The same environment with the two iteration orders replaced. -/
def Env.withOrder (env : Env) (b1 b2 : Bool) : Env :=
  { env with flipTestFiles := b1, flipModifiedFiles := b2 }

/-- Trees of the commits of the repository, oldest first. -/
def World.committed (w : World) : List Snapshot :=
  match w.repo with
  | some r => r.commits
  | none => []

/-- Recognise `Add` calls. -/
def Op.isAdd : Op → Bool
  | .Add _ _ => true
  | _ => false

/-- Recognise `Commit` calls. -/
def Op.isCommit : Op → Bool
  | .Commit _ _ _ _ => true
  | _ => false

/-- Recognise `PrintDiff` calls. -/
def Op.isPrintDiff : Op → Bool
  | .PrintDiff _ _ => true
  | _ => false

/-- Recognise `RemoveAll` calls. -/
def Op.isRemoveAll : Op → Bool
  | .RemoveAll _ => true
  | _ => false

/-! ## The snapshot differ

`PrintDiff` belongs to the library, whose source is not part of the example.
The differ below follows the design document of the repository (sections 3,
4.1 and 8): classification of paths, line diffing and hunk grouping.  The
accessor of an entry's content is taken to be total, so the degraded outcomes
`ContentUnavailable` and `DiffTooLarge` do not arise.
-/

/-- Modelled from the spec: the `mode` of an entry (section 3); the file mode
type of the library is not in the source. -/
inductive Mode where
  | regular
  | executable
  | symlink
  deriving DecidableEq, Repr

/-- Modelled from the spec: an `Entry` (section 3); the tree entries of the
library are not in the source.  `contentID` is used for equality only. -/
structure Entry where
  path : String
  mode : Mode
  contentID : String
  content : String
  deriving DecidableEq, Repr

/-- Modelled from the spec: `changeKind` of a `DiffEntry` (section 3); the
change type of the library is not in the source. -/
inductive ChangeKind where
  | Added
  | Deleted
  | Modified
  | ModeChanged
  deriving DecidableEq, Repr

/-- Modelled from the spec: `LineOp` (section 3); the line operations of the
library are not in the source. -/
inductive LineOp where
  | Context (text : String)
  | Insert (text : String)
  | Delete (text : String)
  deriving DecidableEq, Repr

/-- Modelled from the spec: `Hunk` (section 3), with 1-based line numbers and
line counts; the hunk type of the library is not in the source. -/
structure Hunk where
  oldStart : Nat
  oldLines : Nat
  newStart : Nat
  newLines : Nat
  ops : List LineOp
  deriving DecidableEq, Repr

/-- Modelled from the spec: `DiffEntry` (section 3); the report rows of the
library are not in the source. -/
structure DiffEntry where
  path : String
  changeKind : ChangeKind
  oldEntry : Option Entry
  newEntry : Option Entry
  isBinary : Bool
  hunks : List Hunk
  deriving DecidableEq, Repr

/-- Modelled from the spec: the configuration options of `Diff` (section
4.1); `DiffOptions` of the library is not in the source. -/
structure Options where
  detectBinary : Bool
  contextLines : Nat
  pathFilter : Option (String → Bool)

/-- Modelled from the spec: the defaults of section 4.1 (`detectBinary` true,
`contextLines` 3, no path filter); the library defaults are not in the source. -/
def Options.default : Options :=
  { detectBinary := true, contextLines := 3, pathFilter := none }

/-- Modelled from the spec: the failure of `Diff` on a malformed snapshot
(sections 4.1 and 7); the error values of the library are not in the source. -/
inductive DiffError where
  | InvalidInput
  deriving DecidableEq, Repr

/-- Modelled from the spec: a snapshot as the differ receives it, built by
the collaborator that walks the storage (section 6), which is not in the
source: every file is a regular file and its content identity is its
content, an identity without collisions. -/
def entriesOf (s : Snapshot) : List Entry :=
  s.map (fun e => { path := e.1, mode := .regular, contentID := e.2, content := e.2 })

/-- Tree of the last commit; empty before the first commit. -/
def World.headTree (w : World) : Snapshot :=
  match w.committed.getLast? with
  | some t => t
  | none => []

/-- Modelled from the spec: the entry a snapshot holds for a path; the
snapshot type of the library is not in the source. -/
def findEntry (p : String) : List Entry → Option Entry
  | [] => none
  | e :: rest => if e.path = p then some e else findEntry p rest

/-- Modelled from the spec: "paths are unique within a snapshot" (section
3), violated; the check of the library is not in the source. -/
def hasDuplicatePath : List Entry → Bool
  | [] => false
  | e :: rest => (findEntry e.path rest).isSome || hasDuplicatePath rest

/-- Modelled from the spec: insertion into a list of paths in lexicographic
order without repetition (step 1 of section 4.1); not in the source. -/
def insertPath (p : String) : List String → List String
  | [] => [p]
  | q :: rest =>
    if pathLt p q then p :: q :: rest
    else if p = q then q :: rest
    else q :: insertPath p rest

/-- Modelled from the spec: "Build the union of paths across both snapshots;
iterate in lexicographic order" (step 1 of section 4.1); not in the source. -/
def unionPaths (old new : List Entry) : List String :=
  ((old ++ new).map Entry.path).foldr insertPath []

/-- Modelled from the spec: the classification of one path (step 2 of
section 4.1); `none` is an unchanged or absent path.  Not in the source. -/
def classify : Option Entry → Option Entry → Option ChangeKind
  | none, none => none
  | none, some _ => some .Added
  | some _, none => some .Deleted
  | some o, some n =>
    if o.contentID = n.contentID then
      if o.mode = n.mode then none else some .ModeChanged
    else some .Modified

/-- Modelled from the spec: binary detection (step 3 of section 4.1), a NUL
within the first 8000 units of the content; a Lean string always decodes, so
the decoding test never fires.  Not in the source. -/
def looksBinary (content : String) : Bool :=
  (content.data.take 8000).any (fun c => c.toNat = 0)

/-- The text made of the given lines, each ended by a line feed. -/
def terminated (lines : List String) : String :=
  lines.foldr (fun l acc => l ++ "\n" ++ acc) ""

/-- Modelled from the spec: one row of the table of longest common subsequences: `tail` answers for
the old lines after `x`. -/
def lcsRow (x : String) (tail : List String → Nat) : List String → Nat
  | [] => 0
  | y :: ys => if x = y then 1 + tail ys else max (tail (y :: ys)) (lcsRow x tail ys)

/-- Modelled from the spec: length of the longest common subsequence of two
line sequences, by dynamic programming (step 4 of section 4.1); not in the
source. -/
def lcsLength : List String → List String → Nat
  | [] => fun _ => 0
  | x :: xs => lcsRow x (lcsLength xs)

/-- Modelled from the spec: one row of the table of edit distances (step 4
of section 4.1, P5), not in the source: `tail` answers for the old lines
after `x`, of which there are `n`. -/
def editRow (x : String) (n : Nat) (tail : List String → Nat) : List String → Nat
  | [] => n + 1
  | y :: ys =>
    let skip := 1 + min (tail (y :: ys)) (editRow x n tail ys)
    if x = y then min (tail ys) skip else skip

/-- Modelled from the spec: the edit distance between two line sequences,
counting inserted and deleted lines, in "the classic dynamic-programming
edit-distance formulation" (step 4 of section 4.1, P5); not in the source. -/
def editDistance : List String → List String → Nat
  | [] => fun ys => ys.length
  | x :: xs => editRow x xs.length (editDistance xs)

/-- Modelled from the spec: one row of the edit script (steps 4 and 5 of
section 4.1), not in the source: `tail` gives the script for the old lines
`xs` after `x`. -/
def diffRow (x : String) (xs : List String) (tail : List String → List LineOp) :
    List String → List LineOp
  | [] => .Delete x :: xs.map .Delete
  | y :: ys =>
    if x = y then .Context x :: tail ys
    else if lcsLength xs (y :: ys) ≤ lcsLength (x :: xs) ys then
      .Insert y :: diffRow x xs tail ys
    else .Delete x :: tail (y :: ys)

/-- Modelled from the spec: the edit script between two line sequences, from
the longest common subsequence, matching lines as early as possible and
putting an insertion before a deletion at equal cost (steps 4 and 5 of
section 4.1); not in the source. -/
def lineDiff : List String → List String → List LineOp
  | [] => fun ys => ys.map .Insert
  | x :: xs => diffRow x xs (lineDiff xs)

/-- Modelled from the spec: an `Insert` or `Delete`, as opposed to an
unchanged line (section 3); not in the source. -/
def LineOp.isChange : LineOp → Bool
  | .Context _ => false
  | _ => true

/-- Modelled from the spec: "the sum of Insert+Delete line ops" of a script
(P5); not in the source. -/
def scriptCost (script : List LineOp) : Nat :=
  (script.filter LineOp.isChange).length

/-- Modelled from the spec: the old text a script starts from, its `Context`
and `Delete` lines (section 3); not in the source. -/
def oldSide : List LineOp → List String
  | [] => []
  | .Insert _ :: rest => oldSide rest
  | .Context t :: rest => t :: oldSide rest
  | .Delete t :: rest => t :: oldSide rest

/-- Modelled from the spec: the new text a script arrives at, its `Context`
and `Insert` lines (section 3); not in the source. -/
def newSide : List LineOp → List String
  | [] => []
  | .Delete _ :: rest => newSide rest
  | .Context t :: rest => t :: newSide rest
  | .Insert t :: rest => t :: newSide rest

/-- Modelled from the spec: the lines a script deletes, in order (`Delete`
operations, section 3); not in the source. -/
def deletedLines : List LineOp → List String
  | [] => []
  | .Delete t :: rest => t :: deletedLines rest
  | _ :: rest => deletedLines rest

/-- Modelled from the spec: the lines a script keeps, in order (`Context`
operations, section 3); not in the source. -/
def commonLines : List LineOp → List String
  | [] => []
  | .Context t :: rest => t :: commonLines rest
  | _ :: rest => commonLines rest

/-- Modelled from the spec: an operation with the 1-based numbers of the old
and new line it stands at (the line numbers of a `Hunk`, section 3); not in
the source. -/
structure Placed where
  op : LineOp
  oldNo : Nat
  newNo : Nat
  deriving DecidableEq, Repr

/-- Modelled from the spec: the operations of a script with their line
numbers, `o` old and `n` new lines preceding it (section 3); not in the
source. -/
def place (o n : Nat) : List LineOp → List Placed
  | [] => []
  | .Context t :: rest => ⟨.Context t, o + 1, n + 1⟩ :: place (o + 1) (n + 1) rest
  | .Delete t :: rest => ⟨.Delete t, o + 1, n + 1⟩ :: place (o + 1) n rest
  | .Insert t :: rest => ⟨.Insert t, o + 1, n + 1⟩ :: place o (n + 1) rest

/-- Modelled from the spec: the lines a script inserts, each with its line
number in the new text (`Insert` operations, section 3); not in the source. -/
def insertedLines (script : List LineOp) : List (Nat × String) :=
  (place 0 0 script).filterMap (fun p =>
    match p.op with
    | .Insert t => some (p.newNo, t)
    | _ => none)

/-- Modelled from the spec: position `i` of the script is a change or lies
within `ctx` lines of one, so it belongs to a hunk (step 4 of section 4.1);
not in the source. -/
def nearChange (ctx : Nat) (script : List LineOp) (i : Nat) : Bool :=
  (List.range script.length).any (fun j =>
    (match script.get? j with
     | some op => op.isChange
     | none => false) && decide (i ≤ j + ctx) && decide (j ≤ i + ctx))

/-- Modelled from the spec: maximal runs of flagged elements, as the run the
list starts with, if its head is flagged, and the runs after it (step 4 of
section 4.1); not in the source. -/
def runsFrom {α : Type} : List (Bool × α) → Option (List α) × List (List α)
  | [] => (none, [])
  | (keep, a) :: rest =>
    match runsFrom rest with
    | (cur, done) =>
      if keep then (some (a :: cur.getD []), done)
      else (none, match cur with
                  | some c => c :: done
                  | none => done)

/-- Modelled from the spec: maximal runs of flagged elements, in order (step
4 of section 4.1); not in the source. -/
def runs {α : Type} (l : List (Bool × α)) : List (List α) :=
  match runsFrom l with
  | (some c, done) => c :: done
  | (none, done) => done

/-- Modelled from the spec: the `Hunk` made of a run of numbered operations
(section 3); not in the source. -/
def mkHunk (run : List Placed) : Hunk :=
  { oldStart := (run.head?.map Placed.oldNo).getD 1
    oldLines := (run.filter (fun p => match p.op with
                                      | .Insert _ => false
                                      | _ => true)).length
    newStart := (run.head?.map Placed.newNo).getD 1
    newLines := (run.filter (fun p => match p.op with
                                      | .Delete _ => false
                                      | _ => true)).length
    ops := run.map Placed.op }

/-- Modelled from the spec: hunk grouping (step 4 of section 4.1): changes
separated by fewer than `2*contextLines+1` unchanged lines share a hunk, and a
hunk carries up to `contextLines` unchanged lines on each side.  Not in the
source. -/
def hunksOf (ctx : Nat) (script : List LineOp) : List Hunk :=
  let placed := place 0 0 script
  let flagged := (List.range placed.length).zip placed |>.map
    (fun ip => (nearChange ctx script ip.1, ip.2))
  (runs flagged).map mkHunk

/-- Modelled from the spec: the lines of one side of a path, none when the
path is absent on that side; `split` is the splitting of a text into lines
(step 4 of section 4.1).  Not in the source. -/
def linesOf (split : String → List String) : Option Entry → List String
  | some e => split e.content
  | none => []

/-- Modelled from the spec: one side of a path looks binary (step 3 of
section 4.1); not in the source. -/
def sideBinary : Option Entry → Bool
  | some e => looksBinary e.content
  | none => false

/-- Modelled from the spec: the report row of one path (steps 2 to 4 of
section 4.1); an added or deleted text is diffed against no lines, as in the
scenario of section 8 ("Added with full content as a single insert hunk").
The splitting of a text into lines is the parameter `split`.  Not in the
source. -/
def diffPath (split : String → List String) (opts : Options) (old new : List Entry)
    (p : String) : Option DiffEntry :=
  let o := findEntry p old
  let n := findEntry p new
  match classify o n with
  | none => none
  | some .ModeChanged =>
    some { path := p, changeKind := .ModeChanged, oldEntry := o, newEntry := n,
           isBinary := false, hunks := [] }
  | some kind =>
    let binary := opts.detectBinary && (sideBinary o || sideBinary n)
    some { path := p, changeKind := kind, oldEntry := o, newEntry := n, isBinary := binary,
           hunks := if binary then []
                    else hunksOf opts.contextLines (lineDiff (linesOf split o) (linesOf split n)) }

/-- Modelled from the spec: `Diff(old, new, options)` (section 4.1), the
report in lexicographic path order; `PrintDiff` and the differ of the library
are not in the source.  The splitting of a text into lines is the parameter
`split`. -/
def Diff (split : String → List String) (old new : List Entry) (opts : Options) :
    Except DiffError (List DiffEntry) :=
  if hasDuplicatePath old || hasDuplicatePath new then .error .InvalidInput
  else
    let paths := (unionPaths old new).filter (fun p =>
      match opts.pathFilter with
      | some keep => keep p
      | none => true)
    .ok (paths.filterMap (diffPath split opts old new))

/-! ## Concrete environments -/

/-- An environment in which no call fails. -/
def envClean : Env :=
  { tmp := "/tmp/git-test-1", fail := fun _ => none, removeAll := none,
    flipTestFiles := true, flipModifiedFiles := false }

/-- An environment in which the k-th call fails with `msg` and no other call fails. -/
def envFailAt (k : Nat) (msg : String) : Env :=
  { tmp := "/tmp/git-test-1", fail := fun j => if j = k then some (.lib msg) else none,
    removeAll := none, flipTestFiles := false, flipModifiedFiles := true }

/-- An environment in which the commit fails and then `os.RemoveAll` fails too. -/
def envCleanupFails : Env :=
  { tmp := "/tmp/git-test-1",
    fail := fun j => if j = 7 then some (.lib "cannot commit") else none,
    removeAll := some (.lib "unlinkat /tmp/git-test-1/.git: permission denied"),
    flipTestFiles := false, flipModifiedFiles := false }

/-- A splitting of a text into lines: the pieces between line feeds, without
the empty piece after a final line feed. -/
def terminatedLines (content : String) : List String :=
  let pieces := content.data.foldr
    (fun c acc =>
      match acc with
      | [] => [[c]]
      | cur :: more => if c = '\n' then [] :: cur :: more else (c :: cur) :: more)
    [[]]
  (if pieces.getLast? = some [] then pieces.dropLast else pieces).map String.mk

/-- Files that exist before the run, none of them below the temporary directory. -/
def otherFiles : List (String × String) :=
  [("/etc/hostname", "builder\n"), ("/tmp/git-test-10/file1.txt", "unrelated\n")]

/-! ## Lemmas on paths and finite maps -/

theorem join_data (d n : String) :
    (filepath.Join d n).data = d.data ++ '/' :: n.data := by
  simp [filepath.Join]

theorem join_inj (d a b : String) : filepath.Join d a = filepath.Join d b ↔ a = b := by
  constructor
  · intro h
    have hd := congrArg String.data h
    simp [join_data] at hd
    exact String.ext hd
  · rintro rfl
    rfl

theorem dropLeading_append (p r : List Char) : dropLeading p (p ++ r) = some r := by
  induction p with
  | nil => cases r <;> simp [dropLeading]
  | cons a p ih => simp [dropLeading, ih]

theorem relName_join (d n : String) : relName d (filepath.Join d n) = some n := by
  have h : d.data ++ '/' :: n.data = (d.data ++ ['/']) ++ n.data := by simp
  unfold relName
  rw [join_data, h, dropLeading_append]
  rfl

theorem lookup_upsert_self (k v : String) (m : List (String × String)) :
    lookup k (upsert k v m) = some v := by
  induction m with
  | nil => simp [upsert, lookup]
  | cons e m ih =>
    obtain ⟨k', v'⟩ := e
    by_cases hk : k' = k <;> simp [upsert, lookup, hk, ih]

theorem lookup_upsert_ne (k k' v : String) (m : List (String × String)) (h : k' ≠ k) :
    lookup k (upsert k' v m) = lookup k m := by
  induction m with
  | nil => simp [upsert, lookup, h]
  | cons e m ih =>
    obtain ⟨k2, v2⟩ := e
    by_cases hk : k2 = k' <;> by_cases hk2 : k2 = k <;> simp_all [upsert, lookup]

/-- Writing a key that `m` does not hold leaves `m` in place. -/
theorem upsert_append_fresh (k v : String) (m l : List (String × String))
    (h : ∀ e ∈ m, e.1 ≠ k) : upsert k v (m ++ l) = m ++ upsert k v l := by
  induction m with
  | nil => rfl
  | cons e m ih =>
    obtain ⟨k', v'⟩ := e
    have hk : k' ≠ k := h (k', v') (by simp)
    have ih2 := ih (fun e he => h e (by simp [he]))
    simp [upsert, hk, ih2]

/-- Removing a key that `m` does not hold leaves `m` in place. -/
theorem remove_append_fresh (k : String) (m l : List (String × String))
    (h : ∀ e ∈ m, e.1 ≠ k) : remove k (m ++ l) = m ++ remove k l := by
  unfold remove
  rw [List.filter_append, List.filter_eq_self.mpr (fun e he => by simpa using h e he)]

/-- Looking up a key that `m` does not hold goes past `m`. -/
theorem lookup_append_fresh (k : String) (m l : List (String × String))
    (h : ∀ e ∈ m, e.1 ≠ k) : lookup k (m ++ l) = lookup k l := by
  induction m with
  | nil => rfl
  | cons e m ih =>
    obtain ⟨k2, v2⟩ := e
    have hk : k2 ≠ k := h (k2, v2) (by simp)
    have ih2 := ih (fun e he => h e (by simp [he]))
    simp [lookup, hk, ih2]

/-- Files outside `dir` never collide with a path below `dir`. -/
theorem outside_ne_join (dir : String) (fs : List (String × String))
    (hfs : ∀ e ∈ fs, relName dir e.1 = none) (n : String) :
    ∀ e ∈ fs, e.1 ≠ filepath.Join dir n := by
  intro e he heq
  have h1 := hfs e he
  rw [heq, relName_join] at h1
  exact Option.noConfusion h1

/-- Files outside `dir` do not show in the working tree below `dir`. -/
theorem worktreeSnapshot_append_outside (dir : String) (fs l : List (String × String))
    (hfs : ∀ e ∈ fs, relName dir e.1 = none) :
    worktreeSnapshot dir (fs ++ l) = worktreeSnapshot dir l := by
  have h0 : fs.filterMap (fun e => (relName dir e.1).map (fun n => (n, e.2))) = [] := by
    rw [List.filterMap_eq_nil_iff]
    intro e he
    simp [hfs e he]
  simp [worktreeSnapshot, List.filterMap_append, h0]

/-- A path below `dir` is not outside it. -/
theorem outside_join (dir n c : String) : outside dir (filepath.Join dir n, c) = false := by
  simp [outside, relName_join]

/-- Writing a file below `dir` leaves the files outside `dir` as they are. -/
theorem filter_outside_upsert (dir n c : String) (m : List (String × String)) :
    (upsert (filepath.Join dir n) c m).filter (outside dir) = m.filter (outside dir) := by
  induction m with
  | nil => simp [upsert, outside_join]
  | cons e m ih =>
    obtain ⟨k2, v2⟩ := e
    by_cases hk : k2 = filepath.Join dir n
    · subst hk
      simp [upsert, outside_join]
    · simp [upsert, hk, List.filter_cons, ih]

/-- Removing a file below `dir` leaves the files outside `dir` as they are. -/
theorem filter_outside_remove (dir n : String) (m : List (String × String)) :
    (remove (filepath.Join dir n) m).filter (outside dir) = m.filter (outside dir) := by
  unfold remove
  rw [List.filter_filter]
  apply List.filter_congr
  intro e _
  obtain ⟨k2, v2⟩ := e
  by_cases hk : k2 = filepath.Join dir n
  · subst hk
    simp [outside_join]
  · simp [hk]

/-! ## The edit script is an edit script -/

theorem oldSide_map_delete (xs : List String) : oldSide (xs.map .Delete) = xs := by
  induction xs with
  | nil => rfl
  | cons x xs ih => simp [oldSide, ih]

theorem newSide_map_delete (xs : List String) : newSide (xs.map .Delete) = [] := by
  induction xs with
  | nil => rfl
  | cons x xs ih => simp [newSide, ih]

theorem oldSide_map_insert (ys : List String) : oldSide (ys.map .Insert) = [] := by
  induction ys with
  | nil => rfl
  | cons y ys ih => simp [oldSide, ih]

theorem newSide_map_insert (ys : List String) : newSide (ys.map .Insert) = ys := by
  induction ys with
  | nil => rfl
  | cons y ys ih => simp [newSide, ih]

/-- The script of `lineDiff` starts from the old lines and arrives at the new ones. -/
theorem lineDiff_sides (xs ys : List String) :
    oldSide (lineDiff xs ys) = xs ∧ newSide (lineDiff xs ys) = ys := by
  induction xs generalizing ys with
  | nil => exact ⟨oldSide_map_insert ys, newSide_map_insert ys⟩
  | cons x xs ih =>
    induction ys with
    | nil =>
      simp [lineDiff, diffRow, oldSide, newSide, oldSide_map_delete, newSide_map_delete]
    | cons y ys ihy =>
      have hx := ih ys
      have hxy := ih (y :: ys)
      simp only [lineDiff, diffRow] at ihy hx hxy ⊢
      split
      · rename_i heq
        subst heq
        simp [oldSide, newSide, hx.1, hx.2]
      · split
        · simp [oldSide, newSide, ihy.1, ihy.2]
        · simp [oldSide, newSide, hxy.1, hxy.2]

/-! ## Symbolic runs of `createTestRepo` -/

/-- A run in which the first `11` calls succeed: result and final world. -/
theorem createTestRepo_ok (env : Env) (fs : List (String × String))
    (h : ∀ k, k < 11 → env.fail k = none) :
    createTestRepo env (World.start fs) =
      ((env.tmp, none),
       { calls := 11
         dirs := [env.tmp]
         files := filesAfterSetup env fs
         repo := some ⟨env.tmp, testFiles, [testFiles]⟩
         trace := setupCalls env
         exited := none }) := by
  rcases hf1 : env.flipTestFiles <;> rcases hf2 : env.flipModifiedFiles <;>
  simp [createTestRepo, ioutil.TempDir, git.PlainInit, Repository.Worktree, writeAndAdd,
    writeModified, Worktree.Add, Worktree.Commit, ioutil.WriteFile, os.Remove, libCall,
    World.start, rangeOrder, testFiles, modifiedFiles, h, hf1, hf2, lookup_upsert_self,
    lookup_upsert_ne, join_inj, stage, insertSorted, pathLt, ltChars,
    filesAfterSetup, writeAll, setupCalls]

/-- A run whose first failing call is the k-th: result, trace and what is left. -/
theorem createTestRepo_fail (env : Env) (fs : List (String × String)) (k : Nat) (e : GoError)
    (hk : k < 11) (hpre : ∀ j, j < k → env.fail j = none) (hfail : env.fail k = some e) :
    (createTestRepo env (World.start fs)).1 = ("", some (.wrap (stepPrefix k) e))
    ∧ (createTestRepo env (World.start fs)).2.trace
        = (setupCalls env).take (k + 1) ++ (if k = 0 then [] else [.RemoveAll env.tmp])
    ∧ (createTestRepo env (World.start fs)).2.calls = k + 1
    ∧ (createTestRepo env (World.start fs)).2.exited = none
    ∧ (k = 0 → (createTestRepo env (World.start fs)).2.dirs = [])
    ∧ (k ≠ 0 → env.removeAll = none →
        (createTestRepo env (World.start fs)).2.dirs = []
        ∧ (createTestRepo env (World.start fs)).2.repo = none
        ∧ (createTestRepo env (World.start fs)).2.files = fs.filter (outside env.tmp))
    ∧ (k ≠ 0 → env.removeAll ≠ none →
        (createTestRepo env (World.start fs)).2.dirs = [env.tmp]) := by
  interval_cases k <;>
  rcases hf1 : env.flipTestFiles <;> rcases hf2 : env.flipModifiedFiles <;>
  rcases hra : env.removeAll with _ | er <;>
  simp [createTestRepo, ioutil.TempDir, git.PlainInit, Repository.Worktree, writeAndAdd,
    writeModified, Worktree.Add, Worktree.Commit, ioutil.WriteFile, os.Remove, os.RemoveAll,
    removeTree, libCall, World.start, rangeOrder, testFiles, modifiedFiles, hpre, hfail, hf1,
    hf2, hra, fmt.Errorf, stepPrefix, setupCalls, filter_outside_upsert]

/-- When not every call succeeds there is a first one that fails. -/
theorem exists_first_failure (fail : Nat → Option GoError) (n : Nat)
    (h : ¬ ∀ k, k < n → fail k = none) :
    ∃ k e, k < n ∧ (∀ j, j < k → fail j = none) ∧ fail k = some e := by
  induction n with
  | zero => exact absurd (fun k hk => absurd hk (Nat.not_lt_zero k)) h
  | succ n ih =>
    by_cases hn : ∀ k, k < n → fail k = none
    · cases hv : fail n with
      | none =>
        exfalso
        apply h
        intro k hk
        rcases Nat.lt_succ_iff_lt_or_eq.mp hk with h1 | h1
        · exact hn k h1
        · rw [h1]; exact hv
      | some e => exact ⟨n, e, Nat.lt_succ_self n, hn, hv⟩
    · obtain ⟨k, e, hk, hpre, hf⟩ := ih hn
      exact ⟨k, e, Nat.lt_succ_of_lt hk, hpre, hf⟩

/-- Writing a key that `m` does not hold appends it. -/
theorem upsert_fresh (k v : String) (m : List (String × String))
    (h : ∀ e ∈ m, e.1 ≠ k) : upsert k v m = m ++ [(k, v)] := by
  have h1 := upsert_append_fresh k v m [] h
  simpa [upsert] using h1

/-- Whatever the two iteration orders, an empty temporary directory ends up
holding the modified `file1.txt` and `file3.txt`. -/
theorem filesAfterSetup_eq (env : Env) (fs : List (String × String))
    (hfs : ∀ e ∈ fs, relName env.tmp e.1 = none) :
    filesAfterSetup env fs =
      fs ++ [(filepath.Join env.tmp "file1.txt", "Modified content\nfor file1\nwith new line\n"),
             (filepath.Join env.tmp "file3.txt", "New file content\n")] := by
  have hout := outside_ne_join env.tmp fs hfs
  rcases hf1 : env.flipTestFiles <;> rcases hf2 : env.flipModifiedFiles <;>
  simp [filesAfterSetup, writeAll, rangeOrder, testFiles, modifiedFiles, hf1, hf2,
    upsert_fresh _ _ _ (hout _), upsert_append_fresh _ _ _ _ (hout _),
    remove_append_fresh _ _ _ (hout _), upsert, remove, join_inj] <;>
  exact fun a b hab => hout _ (a, b) hab

/-- The working tree a successful run leaves in an empty temporary directory. -/
theorem worktree_after_setup (env : Env) (fs : List (String × String))
    (hfs : ∀ e ∈ fs, relName env.tmp e.1 = none) :
    worktreeSnapshot env.tmp (filesAfterSetup env fs) =
      [("file1.txt", "Modified content\nfor file1\nwith new line\n"),
       ("file3.txt", "New file content\n")] := by
  rw [filesAfterSetup_eq env fs hfs, worktreeSnapshot_append_outside env.tmp fs _ hfs]
  simp [worktreeSnapshot, relName_join, sortByPath, insertSorted, pathLt, ltChars]

/-! ## Properties of `createTestRepo` -/

/-- C1: in a run of `createTestRepo` in which every call succeeds, exactly one
commit is made and its tree is the mapping of `file1.txt` and `file2.txt` to
their original contents; each of the two files is written and later staged
with `Add` before the one `Commit` call, and neither an `Add` nor a `Commit`
follows that call. -/
theorem createTestRepo_commits_original_files (env : Env) (fs : List (String × String))
    (h : ∀ k, k < 11 → env.fail k = none) :
    (createTestRepo env (World.start fs)).2.committed =
      [[("file1.txt", "Original content\nfor file1\n"),
        ("file2.txt", "Original content\nfor file2\n")]]
    ∧ ∃ pre post,
        (createTestRepo env (World.start fs)).2.trace =
          pre ++ [Op.Commit env.tmp "Initial commit" "Test Author" "test@example.com"] ++ post
        ∧ (∀ name content,
            (name, content) ∈ [("file1.txt", "Original content\nfor file1\n"),
                               ("file2.txt", "Original content\nfor file2\n")] →
            ∃ a b c, pre = a ++ [Op.WriteFile (filepath.Join env.tmp name) content 0o644]
                            ++ b ++ [Op.Add env.tmp name] ++ c)
        ∧ (∀ op ∈ pre, op.isCommit = false)
        ∧ (∀ op ∈ post, op.isAdd = false ∧ op.isCommit = false) := by
  rw [createTestRepo_ok env fs h]
  refine ⟨by simp [World.committed, testFiles], ?_⟩
  refine ⟨(setupCalls env).take 7, (setupCalls env).drop 8, ?_, ?_, ?_, ?_⟩
  · rcases hf1 : env.flipTestFiles <;> rcases hf2 : env.flipModifiedFiles <;>
    simp [setupCalls, rangeOrder, testFiles, modifiedFiles, hf1, hf2]
  · intro name content hmem
    simp only [List.mem_cons, Prod.mk.injEq, List.mem_nil_iff, or_false] at hmem
    rcases hf1 : env.flipTestFiles
    · rcases hmem with ⟨rfl, rfl⟩ | ⟨rfl, rfl⟩
      · exact ⟨[.TempDir "" "git-test-*", .PlainInit env.tmp false, .Worktree env.tmp], [],
          [.WriteFile (filepath.Join env.tmp "file2.txt") "Original content\nfor file2\n" 0o644,
           .Add env.tmp "file2.txt"],
          by simp [setupCalls, rangeOrder, testFiles, hf1]⟩
      · exact ⟨[.TempDir "" "git-test-*", .PlainInit env.tmp false, .Worktree env.tmp,
           .WriteFile (filepath.Join env.tmp "file1.txt") "Original content\nfor file1\n" 0o644,
           .Add env.tmp "file1.txt"], [], [],
          by simp [setupCalls, rangeOrder, testFiles, hf1]⟩
    · rcases hmem with ⟨rfl, rfl⟩ | ⟨rfl, rfl⟩
      · exact ⟨[.TempDir "" "git-test-*", .PlainInit env.tmp false, .Worktree env.tmp,
           .WriteFile (filepath.Join env.tmp "file2.txt") "Original content\nfor file2\n" 0o644,
           .Add env.tmp "file2.txt"], [], [],
          by simp [setupCalls, rangeOrder, testFiles, hf1]⟩
      · exact ⟨[.TempDir "" "git-test-*", .PlainInit env.tmp false, .Worktree env.tmp], [],
          [.WriteFile (filepath.Join env.tmp "file1.txt") "Original content\nfor file1\n" 0o644,
           .Add env.tmp "file1.txt"],
          by simp [setupCalls, rangeOrder, testFiles, hf1]⟩
  · rcases hf1 : env.flipTestFiles <;>
    simp [setupCalls, rangeOrder, testFiles, hf1, Op.isCommit]
  · rcases hf1 : env.flipTestFiles <;> rcases hf2 : env.flipModifiedFiles <;>
    simp [setupCalls, rangeOrder, testFiles, modifiedFiles, hf1, hf2, Op.isCommit, Op.isAdd]

/-- C2: a run of `createTestRepo` in which every call succeeds, started with
nothing below the temporary directory, leaves as working tree exactly
`file1.txt` with the modified content and `file3.txt` with the new content;
`file2.txt` does not exist. -/
theorem createTestRepo_working_tree (env : Env) (fs : List (String × String))
    (h : ∀ k, k < 11 → env.fail k = none)
    (hfs : ∀ e ∈ fs, relName env.tmp e.1 = none) :
    worktreeSnapshot env.tmp (createTestRepo env (World.start fs)).2.files =
      [("file1.txt", "Modified content\nfor file1\nwith new line\n"),
       ("file3.txt", "New file content\n")]
    ∧ lookup (filepath.Join env.tmp "file1.txt") (createTestRepo env (World.start fs)).2.files
        = some "Modified content\nfor file1\nwith new line\n"
    ∧ lookup (filepath.Join env.tmp "file3.txt") (createTestRepo env (World.start fs)).2.files
        = some "New file content\n"
    ∧ lookup (filepath.Join env.tmp "file2.txt") (createTestRepo env (World.start fs)).2.files
        = none := by
  have hout := outside_ne_join env.tmp fs hfs
  rw [createTestRepo_ok env fs h]
  refine ⟨worktree_after_setup env fs hfs, ?_, ?_, ?_⟩ <;>
  · simp only [filesAfterSetup_eq env fs hfs]
    rw [lookup_append_fresh _ _ _ (hout _)]
    simp [lookup, join_inj]

/-- The calls of a clean run do not depend on which calls fail. -/
theorem setupCalls_allOk (env : Env) : setupCalls env.allOk = setupCalls env := rfl

/-- The trace of the run of the same environment in which nothing fails. -/
theorem trace_allOk (env : Env) (fs : List (String × String)) :
    (createTestRepo env.allOk (World.start fs)).2.trace = setupCalls env := by
  rw [createTestRepo_ok env.allOk fs (fun _ _ => rfl)]
  rfl

/-- C5: `createTestRepo` returns the temporary directory and a nil error
exactly when each of its eleven calls succeeds; when a call fails it returns
the empty path and a non-nil error. -/
theorem createTestRepo_result (env : Env) (fs : List (String × String)) :
    ((createTestRepo env (World.start fs)).1 = (env.tmp, none)
        ↔ ∀ k, k < 11 → env.fail k = none)
    ∧ ((createTestRepo env (World.start fs)).1.2 = none
        ↔ ∀ k, k < 11 → env.fail k = none)
    ∧ ((¬ ∀ k, k < 11 → env.fail k = none) →
        (createTestRepo env (World.start fs)).1.1 = ""
        ∧ (createTestRepo env (World.start fs)).1.2 ≠ none) := by
  by_cases hall : ∀ k, k < 11 → env.fail k = none
  · rw [createTestRepo_ok env fs hall]
    exact ⟨⟨fun _ => hall, fun _ => rfl⟩, ⟨fun _ => hall, fun _ => rfl⟩,
      fun hn => absurd hall hn⟩
  · obtain ⟨k, e, hk, hpre, hfail⟩ := exists_first_failure env.fail 11 hall
    obtain ⟨hres, -⟩ := createTestRepo_fail env fs k e hk hpre hfail
    rw [hres]
    simp [hall]

/-- C8: when the k-th call is the first to fail, `createTestRepo` has made
the first k+1 calls of the run in which nothing fails, followed only by the
cleanup `RemoveAll` (none when the failing call is `TempDir`), and it returns
the cause wrapped under the prefix of the failing call. -/
theorem createTestRepo_stops_at_first_failure (env : Env) (fs : List (String × String))
    (k : Nat) (e : GoError) (hk : k < 11)
    (hpre : ∀ j, j < k → env.fail j = none) (hfail : env.fail k = some e) :
    (createTestRepo env (World.start fs)).2.trace =
        ((createTestRepo env.allOk (World.start fs)).2.trace).take (k + 1)
          ++ (if k = 0 then [] else [Op.RemoveAll env.tmp])
    ∧ (createTestRepo env (World.start fs)).2.calls = k + 1
    ∧ ∃ op, (createTestRepo env (World.start fs)).2.trace.get? k = some op
        ∧ (createTestRepo env (World.start fs)).1 =
            ("", some (fmt.Errorf
              (errorPrefix (((createTestRepo env (World.start fs)).2.trace.take k).any
                Op.isCommit) op) e))
        ∧ (fmt.Errorf
              (errorPrefix (((createTestRepo env (World.start fs)).2.trace.take k).any
                Op.isCommit) op) e).Unwrap = some e
        ∧ (fmt.Errorf
              (errorPrefix (((createTestRepo env (World.start fs)).2.trace.take k).any
                Op.isCommit) op) e).Error
            = errorPrefix (((createTestRepo env (World.start fs)).2.trace.take k).any
                Op.isCommit) op ++ ": " ++ e.Error
        ∧ errorPrefix (((createTestRepo env (World.start fs)).2.trace.take k).any
                Op.isCommit) op
            ∈ ["create temp dir", "init repo", "get worktree", "write file", "git add",
               "create commit", "write modified file", "remove file"] := by
  obtain ⟨hres, htrace, hcalls, -⟩ := createTestRepo_fail env fs k e hk hpre hfail
  rw [trace_allOk, htrace, hres, hcalls]
  refine ⟨rfl, rfl, ?_⟩
  interval_cases k <;>
  rcases hf1 : env.flipTestFiles <;> rcases hf2 : env.flipModifiedFiles <;>
  simp [setupCalls, rangeOrder, testFiles, modifiedFiles, hf1, hf2, fmt.Errorf, stepPrefix,
    errorPrefix, Op.isCommit, GoError.Unwrap, GoError.Error]

/-- C9 (amended): when a call after `TempDir` is the first to fail,
`RemoveAll` of the temporary directory is the last call of `createTestRepo`
and it is made once; its error is discarded, and when it succeeds the
directory, the repository in it and every file below it are gone while the
files outside it are those from before.  When `TempDir` itself fails, or when
nothing fails, no `RemoveAll` is made; after a failed `TempDir` no directory
exists, and after a clean run the directory exists. -/
theorem createTestRepo_cleanup (env : Env) (fs : List (String × String)) :
    (∀ k e, 0 < k → k < 11 → (∀ j, j < k → env.fail j = none) → env.fail k = some e →
        (createTestRepo env (World.start fs)).2.trace.getLast? = some (Op.RemoveAll env.tmp)
        ∧ ((createTestRepo env (World.start fs)).2.trace.filter Op.isRemoveAll)
            = [Op.RemoveAll env.tmp]
        ∧ (env.removeAll = none →
            env.tmp ∉ (createTestRepo env (World.start fs)).2.dirs
            ∧ (createTestRepo env (World.start fs)).2.repo = none
            ∧ (createTestRepo env (World.start fs)).2.files = fs.filter (outside env.tmp)
            ∧ (∀ f ∈ (createTestRepo env (World.start fs)).2.files, relName env.tmp f.1 = none)
            ∧ worktreeSnapshot env.tmp (createTestRepo env (World.start fs)).2.files = []))
    ∧ (∀ e, env.fail 0 = some e →
        (createTestRepo env (World.start fs)).2.trace.filter Op.isRemoveAll = []
        ∧ (createTestRepo env (World.start fs)).2.dirs = [])
    ∧ ((∀ k, k < 11 → env.fail k = none) →
        (createTestRepo env (World.start fs)).2.trace.filter Op.isRemoveAll = []
        ∧ env.tmp ∈ (createTestRepo env (World.start fs)).2.dirs) := by
  refine ⟨?_, ?_, ?_⟩
  · intro k e hpos hk hpre hfail
    obtain ⟨-, htrace, -, -, -, hgone, -⟩ := createTestRepo_fail env fs k e hk hpre hfail
    rw [htrace]
    refine ⟨?_, ?_, ?_⟩
    · interval_cases k <;>
      rcases hf1 : env.flipTestFiles <;> rcases hf2 : env.flipModifiedFiles <;>
      simp [setupCalls, rangeOrder, testFiles, modifiedFiles, hf1, hf2]
    · interval_cases k <;>
      rcases hf1 : env.flipTestFiles <;> rcases hf2 : env.flipModifiedFiles <;>
      simp [setupCalls, rangeOrder, testFiles, modifiedFiles, hf1, hf2, Op.isRemoveAll]
    · intro hra
      obtain ⟨hdirs, hrepo, hfiles⟩ := hgone (Nat.pos_iff_ne_zero.mp hpos) hra
      have hout : ∀ f ∈ fs.filter (outside env.tmp), relName env.tmp f.1 = none := by
        intro f hf
        have h2 := (List.mem_filter.mp hf).2
        simpa [outside] using h2
      rw [hdirs, hrepo, hfiles]
      refine ⟨by simp, rfl, rfl, hout, ?_⟩
      have h3 := worktreeSnapshot_append_outside env.tmp (fs.filter (outside env.tmp)) [] hout
      rw [List.append_nil] at h3
      rw [h3]
      rfl
  · intro e hfail
    obtain ⟨-, htrace, -, -, hdirs, -⟩ :=
      createTestRepo_fail env fs 0 e (by decide) (fun j hj => absurd hj (Nat.not_lt_zero j)) hfail
    rw [htrace, hdirs rfl]
    simp [setupCalls, Op.isRemoveAll]
  · intro hall
    rw [createTestRepo_ok env fs hall]
    rcases hf1 : env.flipTestFiles <;> rcases hf2 : env.flipModifiedFiles <;>
    simp [setupCalls, rangeOrder, testFiles, modifiedFiles, hf1, hf2, Op.isRemoveAll]

/-- C9 (counterexample): the commit fails, `createTestRepo` calls
`RemoveAll` and returns the commit error, `RemoveAll` fails as well, and the
temporary directory with the two files written into it is left behind. -/
theorem createTestRepo_cleanup_can_fail :
    (createTestRepo envCleanupFails (World.start [])).1
      = ("", some (.wrap "create commit" (.lib "cannot commit")))
    ∧ (createTestRepo envCleanupFails (World.start [])).2.trace.getLast?
      = some (Op.RemoveAll "/tmp/git-test-1")
    ∧ "/tmp/git-test-1" ∈ (createTestRepo envCleanupFails (World.start [])).2.dirs
    ∧ worktreeSnapshot "/tmp/git-test-1"
        (createTestRepo envCleanupFails (World.start [])).2.files
      = [("file1.txt", "Original content\nfor file1\n"),
         ("file2.txt", "Original content\nfor file2\n")] := by
  decide

/-- C10: a run of `createTestRepo` in which every call succeeds, started
with nothing below the temporary directory, returns the same result, commits
the same trees and leaves the same files and the same working tree under
each of the two iteration orders of each of the two maps. -/
theorem createTestRepo_order_independent (env : Env) (fs : List (String × String))
    (h : ∀ k, k < 11 → env.fail k = none)
    (hfs : ∀ e ∈ fs, relName env.tmp e.1 = none) (b1 b2 : Bool) :
    (createTestRepo (env.withOrder b1 b2) (World.start fs)).1
        = (createTestRepo env (World.start fs)).1
    ∧ (createTestRepo (env.withOrder b1 b2) (World.start fs)).2.committed
        = (createTestRepo env (World.start fs)).2.committed
    ∧ (createTestRepo (env.withOrder b1 b2) (World.start fs)).2.repo
        = (createTestRepo env (World.start fs)).2.repo
    ∧ (createTestRepo (env.withOrder b1 b2) (World.start fs)).2.files
        = (createTestRepo env (World.start fs)).2.files
    ∧ worktreeSnapshot env.tmp (createTestRepo (env.withOrder b1 b2) (World.start fs)).2.files
        = worktreeSnapshot env.tmp (createTestRepo env (World.start fs)).2.files := by
  have h2 : ∀ k, k < 11 → (env.withOrder b1 b2).fail k = none := h
  have hfs2 : ∀ e ∈ fs, relName (env.withOrder b1 b2).tmp e.1 = none := hfs
  rw [createTestRepo_ok env fs h, createTestRepo_ok (env.withOrder b1 b2) fs h2]
  simp only [filesAfterSetup_eq env fs hfs, filesAfterSetup_eq (env.withOrder b1 b2) fs hfs2]
  exact ⟨rfl, rfl, rfl, rfl, rfl⟩

/-! ## Properties of `main` -/

/-- The returned error is nil exactly when the eleven calls succeed. -/
theorem setup_error_none_iff (env : Env) (fs : List (String × String)) :
    (createTestRepo env (World.start fs)).1.2 = none ↔ ∀ k, k < 11 → env.fail k = none := by
  by_cases hall : ∀ k, k < 11 → env.fail k = none
  · rw [createTestRepo_ok env fs hall]
    exact ⟨fun _ => hall, fun _ => rfl⟩
  · obtain ⟨k, e, hk, hpre, hfail⟩ := exists_first_failure env.fail 11 hall
    obtain ⟨hres, -⟩ := createTestRepo_fail env fs k e hk hpre hfail
    rw [hres]
    simp [hall]

/-- The function `createTestRepo` never calls `PrintDiff`. -/
theorem setup_trace_no_printDiff (env : Env) (fs : List (String × String)) :
    (createTestRepo env (World.start fs)).2.trace.filter Op.isPrintDiff = [] := by
  by_cases hall : ∀ k, k < 11 → env.fail k = none
  · rw [createTestRepo_ok env fs hall]
    rcases hf1 : env.flipTestFiles <;> rcases hf2 : env.flipModifiedFiles <;>
    simp [setupCalls, rangeOrder, testFiles, modifiedFiles, hf1, hf2, Op.isPrintDiff]
  · obtain ⟨k, e, hk, hpre, hfail⟩ := exists_first_failure env.fail 11 hall
    obtain ⟨-, htrace, -⟩ := createTestRepo_fail env fs k e hk hpre hfail
    rw [htrace]
    interval_cases k <;>
    rcases hf1 : env.flipTestFiles <;> rcases hf2 : env.flipModifiedFiles <;>
    simp [setupCalls, rangeOrder, testFiles, modifiedFiles, hf1, hf2, Op.isPrintDiff]

/-- When `createTestRepo` fails, `main` prints the failure and exits. -/
theorem main_of_setup_error (env : Env) (w0 : World) (dir : String) (e : GoError) (w : World)
    (hrun : createTestRepo env w0 = ((dir, some e), w)) :
    main env w0 = os.Exit 1 (fmt.Printf ("创建测试仓库失败: " ++ e.Error ++ "\n") w) := by
  simp [main, hrun]

/-- After a clean `createTestRepo`, `main` goes on to open the repository. -/
theorem main_of_setup_ok (env : Env) (fs : List (String × String))
    (hall : ∀ k, k < 11 → env.fail k = none) :
    main env (World.start fs) =
      match env.fail 11 with
      | some e =>
        os.Exit 1 (fmt.Printf ("无法打开仓库: " ++ e.Error ++ "\n")
          (libCall env (.PlainOpen env.tmp) (createTestRepo env (World.start fs)).2).2)
      | none =>
        match env.fail 12 with
        | some e =>
          os.Exit 1 (fmt.Printf ("无法获取工作区: " ++ e.Error ++ "\n")
            (libCall env (.Worktree env.tmp)
              (libCall env (.PlainOpen env.tmp) (createTestRepo env (World.start fs)).2).2).2)
        | none =>
          match env.fail 13 with
          | some e =>
            os.Exit 1 (fmt.Printf ("打印差异失败: " ++ e.Error ++ "\n")
              (libCall env (.PrintDiff env.tmp true)
                (libCall env (.Worktree env.tmp)
                  (libCall env (.PlainOpen env.tmp)
                    (createTestRepo env (World.start fs)).2).2).2).2)
          | none =>
            { (os.RemoveAll env env.tmp
                (libCall env (.PrintDiff env.tmp true)
                  (libCall env (.Worktree env.tmp)
                    (libCall env (.PlainOpen env.tmp)
                      (createTestRepo env (World.start fs)).2).2).2).2).2
              with exited := some 0 } := by
  rw [createTestRepo_ok env fs hall]
  rcases h11 : env.fail 11 with _ | e1 <;> rcases h12 : env.fail 12 with _ | e2 <;>
  rcases h13 : env.fail 13 with _ | e3 <;>
  simp [main, createTestRepo_ok env fs hall, git.PlainOpen, Repository.Worktree,
    Worktree.PrintDiff, libCall, runDeferred, h11, h12, h13]

/-- C6: with `dir`, `err` and `w` what `createTestRepo` returns and leaves,
the trace of `main` holds one `PrintDiff`, on the worktree of the repository
at `dir` and with `DetectBinary` true, exactly when `createTestRepo`,
`PlainOpen` and `Worktree` succeed, and none otherwise; then it follows
`PlainOpen dir` and `Worktree`, which are calls 11 and 12 of the run, and
`PrintDiff` is call 13.  When `createTestRepo`, `PlainOpen`,
`Worktree` or `PrintDiff` fails, the calls of `main` end with the failing
call, the failure message and `Exit 1`, and the exit status is 1. -/
theorem main_printDiff_and_failures (env : Env) (fs : List (String × String))
    (dir : String) (err : Option GoError) (w : World)
    (hrun : createTestRepo env (World.start fs) = ((dir, err), w)) :
    ((main env (World.start fs)).trace.filter Op.isPrintDiff = [Op.PrintDiff dir true]
        ↔ (err = none ∧ env.fail 11 = none ∧ env.fail 12 = none))
    ∧ (¬ (err = none ∧ env.fail 11 = none ∧ env.fail 12 = none) →
        (main env (World.start fs)).trace.filter Op.isPrintDiff = [])
    ∧ (err = none → w.calls = 11)
    ∧ (err = none → env.fail 11 = none → env.fail 12 = none →
        ∃ post, (main env (World.start fs)).trace =
          w.trace ++ [Op.PlainOpen dir, Op.Worktree dir, Op.PrintDiff dir true] ++ post)
    ∧ (∀ e, err = some e →
        (main env (World.start fs)).trace =
          w.trace ++ [Op.Printf ("创建测试仓库失败: " ++ e.Error ++ "\n"), Op.Exit 1]
        ∧ (main env (World.start fs)).exited = some 1)
    ∧ (∀ e, err = none → env.fail 11 = some e →
        (main env (World.start fs)).trace =
          w.trace ++ [Op.PlainOpen dir, Op.Printf ("无法打开仓库: " ++ e.Error ++ "\n"), Op.Exit 1]
        ∧ (main env (World.start fs)).exited = some 1)
    ∧ (∀ e, err = none → env.fail 11 = none → env.fail 12 = some e →
        (main env (World.start fs)).trace =
          w.trace ++ [Op.PlainOpen dir, Op.Worktree dir,
            Op.Printf ("无法获取工作区: " ++ e.Error ++ "\n"), Op.Exit 1]
        ∧ (main env (World.start fs)).exited = some 1)
    ∧ (∀ e, err = none → env.fail 11 = none → env.fail 12 = none → env.fail 13 = some e →
        (main env (World.start fs)).trace =
          w.trace ++ [Op.PlainOpen dir, Op.Worktree dir, Op.PrintDiff dir true,
            Op.Printf ("打印差异失败: " ++ e.Error ++ "\n"), Op.Exit 1]
        ∧ (main env (World.start fs)).exited = some 1) := by
  have hnp := setup_trace_no_printDiff env fs
  rw [hrun] at hnp
  simp only at hnp
  rcases err with _ | e0
  · have hall : ∀ k, k < 11 → env.fail k = none := by
      rw [← setup_error_none_iff env fs, hrun]
    have h1 := createTestRepo_ok env fs hall
    rw [hrun] at h1
    simp only [Prod.mk.injEq] at h1
    obtain ⟨⟨hdir, -⟩, hw⟩ := h1
    subst hdir
    subst hw
    rw [main_of_setup_ok env fs hall, hrun]
    rcases h11 : env.fail 11 with _ | e1 <;> rcases h12 : env.fail 12 with _ | e2 <;>
    rcases h13 : env.fail 13 with _ | e3 <;> rcases hra : env.removeAll with _ | er <;>
    simp [libCall, fmt.Printf, os.Exit, os.RemoveAll, removeTree, Op.isPrintDiff, hnp, hra]
  · rw [main_of_setup_error env _ dir e0 w hrun]
    simp [fmt.Printf, os.Exit, Op.isPrintDiff, hnp]

/-- C7: in every run of `main` in which `createTestRepo` succeeds and
`PlainOpen`, `Worktree` or `PrintDiff` fails, `main` ends in `os.Exit(1)`
and the deferred `os.RemoveAll(dir)` is never executed: no `RemoveAll` is in
the trace and the temporary directory still exists. -/
theorem main_exit_skips_cleanup (env : Env) (fs : List (String × String))
    (hall : ∀ k, k < 11 → env.fail k = none)
    (hfail : env.fail 11 ≠ none ∨ env.fail 12 ≠ none ∨ env.fail 13 ≠ none) :
    (main env (World.start fs)).trace.filter Op.isRemoveAll = []
    ∧ (main env (World.start fs)).exited = some 1
    ∧ env.tmp ∈ (main env (World.start fs)).dirs := by
  rw [main_of_setup_ok env fs hall, createTestRepo_ok env fs hall]
  rcases h11 : env.fail 11 with _ | e1 <;> rcases h12 : env.fail 12 with _ | e2 <;>
  rcases h13 : env.fail 13 with _ | e3 <;>
  rcases hf1 : env.flipTestFiles <;> rcases hf2 : env.flipModifiedFiles <;>
  simp_all [libCall, fmt.Printf, os.Exit, Op.isRemoveAll, setupCalls, rangeOrder, testFiles,
    modifiedFiles]

/-- When every call of `main` succeeds, `main` returns, the deferred
`RemoveAll` is its last call and, when it succeeds, the temporary directory
is gone. -/
theorem main_return_runs_cleanup (env : Env) (fs : List (String × String))
    (hall : ∀ k, k < 14 → env.fail k = none) (hra : env.removeAll = none) :
    (main env (World.start fs)).trace =
      setupCalls env ++ [Op.PlainOpen env.tmp, Op.Worktree env.tmp,
        Op.PrintDiff env.tmp true, Op.RemoveAll env.tmp]
    ∧ (main env (World.start fs)).exited = some 0
    ∧ env.tmp ∉ (main env (World.start fs)).dirs := by
  have h11 : ∀ k, k < 11 → env.fail k = none := fun k hk => hall k (by omega)
  rw [main_of_setup_ok env fs h11, createTestRepo_ok env fs h11]
  simp [hall, hra, libCall, os.RemoveAll, removeTree]

/-! ## The diff of the two snapshots -/

/-- C3: for the tree committed by a run of `createTestRepo` in which every
call succeeds and the working tree it leaves in an empty temporary
directory, the differ reports exactly three entries, in lexicographic path
order: `file1.txt` Modified (an old and a new entry), `file2.txt` Deleted
(an old entry only), `file3.txt` Added (a new entry only). -/
theorem diff_of_setup_snapshots (env : Env) (fs : List (String × String))
    (split : String → List String)
    (h : ∀ k, k < 11 → env.fail k = none)
    (hfs : ∀ e ∈ fs, relName env.tmp e.1 = none) :
    (Diff split (entriesOf (createTestRepo env (World.start fs)).2.headTree)
          (entriesOf (worktreeSnapshot env.tmp (createTestRepo env (World.start fs)).2.files))
          Options.default).map
        (fun ds => ds.map (fun d => (d.path, d.changeKind, d.oldEntry.isSome, d.newEntry.isSome)))
      = .ok [("file1.txt", ChangeKind.Modified, true, true),
             ("file2.txt", ChangeKind.Deleted, true, false),
             ("file3.txt", ChangeKind.Added, false, true)] := by
  rw [createTestRepo_ok env fs h]
  simp only [worktree_after_setup env fs hfs]
  rfl

/-- C4: the two versions of `file1.txt` are the lines "Original content",
"for file1" and "Modified content", "for file1", "with new line", each ended
by a line feed.  The edit script between these line sequences leads from
the old lines to the new ones, deletes
"Original content", inserts "Modified content" as line 1 and "with new line"
as line 3 and keeps only "for file1"; its cost is 3, which is the edit
distance; with the default of 3 context lines the whole script is one hunk.
`file3.txt`, absent from the commit, is the line "New file content"; its
script is the one insertion of that line, in one hunk. -/
theorem line_diffs_of_file1_and_file3 :
    lookup "file1.txt" testFiles = some (terminated ["Original content", "for file1"])
    ∧ lookup "file1.txt" modifiedFiles
        = some (terminated ["Modified content", "for file1", "with new line"])
    ∧ lookup "file3.txt" testFiles = none
    ∧ lookup "file3.txt" modifiedFiles = some (terminated ["New file content"])
    ∧ oldSide (lineDiff ["Original content", "for file1"]
        ["Modified content", "for file1", "with new line"]) = ["Original content", "for file1"]
    ∧ newSide (lineDiff ["Original content", "for file1"]
        ["Modified content", "for file1", "with new line"])
        = ["Modified content", "for file1", "with new line"]
    ∧ deletedLines (lineDiff ["Original content", "for file1"]
        ["Modified content", "for file1", "with new line"]) = ["Original content"]
    ∧ insertedLines (lineDiff ["Original content", "for file1"]
        ["Modified content", "for file1", "with new line"])
        = [(1, "Modified content"), (3, "with new line")]
    ∧ commonLines (lineDiff ["Original content", "for file1"]
        ["Modified content", "for file1", "with new line"]) = ["for file1"]
    ∧ scriptCost (lineDiff ["Original content", "for file1"]
        ["Modified content", "for file1", "with new line"]) = 3
    ∧ editDistance ["Original content", "for file1"]
        ["Modified content", "for file1", "with new line"] = 3
    ∧ Options.default.contextLines = 3
    ∧ (hunksOf Options.default.contextLines (lineDiff ["Original content", "for file1"]
        ["Modified content", "for file1", "with new line"])).map Hunk.ops
        = [lineDiff ["Original content", "for file1"]
            ["Modified content", "for file1", "with new line"]]
    ∧ lineDiff [] ["New file content"] = [LineOp.Insert "New file content"]
    ∧ (hunksOf Options.default.contextLines (lineDiff [] ["New file content"])).map Hunk.ops
        = [[LineOp.Insert "New file content"]] := by
  refine ⟨rfl, rfl, rfl, rfl, rfl, rfl, rfl, rfl, rfl, rfl, rfl, rfl, rfl, rfl, rfl⟩

/-! ## Instances at concrete environments -/

theorem envClean_ok : ∀ k, k < 11 → envClean.fail k = none :=
  fun _ _ => rfl

theorem envFailAt_before (k : Nat) (msg : String) :
    ∀ j, j < k → (envFailAt k msg).fail j = none :=
  fun _ hj => if_neg (Nat.ne_of_lt hj)

theorem envFailAt_at (k : Nat) (msg : String) :
    (envFailAt k msg).fail k = some (.lib msg) :=
  if_pos rfl

theorem otherFiles_outside : ∀ e ∈ otherFiles, relName "/tmp/git-test-1" e.1 = none := by
  decide

/-- Instance of C1 at `envClean`. -/
theorem createTestRepo_commits_original_files_witness :
    (∀ k, k < 11 → envClean.fail k = none)
    ∧ (createTestRepo envClean (World.start otherFiles)).2.committed =
        [[("file1.txt", "Original content\nfor file1\n"),
          ("file2.txt", "Original content\nfor file2\n")]] :=
  ⟨envClean_ok, (createTestRepo_commits_original_files envClean otherFiles envClean_ok).1⟩

/-- Instance of C2 at `envClean` with other files around. -/
theorem createTestRepo_working_tree_witness :
    (∀ e ∈ otherFiles, relName envClean.tmp e.1 = none)
    ∧ worktreeSnapshot envClean.tmp (createTestRepo envClean (World.start otherFiles)).2.files =
        [("file1.txt", "Modified content\nfor file1\nwith new line\n"),
         ("file3.txt", "New file content\n")] :=
  ⟨otherFiles_outside,
   (createTestRepo_working_tree envClean otherFiles envClean_ok otherFiles_outside).1⟩

/-- Instance of C3 at `envClean` with other files around. -/
theorem diff_of_setup_snapshots_witness :
    (Diff terminatedLines
          (entriesOf (createTestRepo envClean (World.start otherFiles)).2.headTree)
          (entriesOf (worktreeSnapshot envClean.tmp
            (createTestRepo envClean (World.start otherFiles)).2.files))
          Options.default).map
        (fun ds => ds.map (fun d => (d.path, d.changeKind, d.oldEntry.isSome, d.newEntry.isSome)))
      = .ok [("file1.txt", ChangeKind.Modified, true, true),
             ("file2.txt", ChangeKind.Deleted, true, false),
             ("file3.txt", ChangeKind.Added, false, true)] :=
  diff_of_setup_snapshots envClean otherFiles terminatedLines envClean_ok otherFiles_outside

/-- Instance of C5: at `envClean` the directory and a nil error are returned. -/
theorem createTestRepo_result_witness :
    (createTestRepo envClean (World.start [])).1 = ("/tmp/git-test-1", none) :=
  (createTestRepo_result envClean []).1.mpr envClean_ok

/-- Instance of C6 at a failing `Worktree` call of `main`. -/
theorem main_printDiff_and_failures_witness :
    (main (envFailAt 12 "worktree not available") (World.start [])).trace.filter Op.isPrintDiff
      = []
    ∧ (main (envFailAt 12 "worktree not available") (World.start [])).exited = some 1 :=
  ⟨(main_printDiff_and_failures (envFailAt 12 "worktree not available") [] _ _ _ rfl).2.1
      (by decide),
   ((main_printDiff_and_failures (envFailAt 12 "worktree not available") [] _ _ _ rfl).2.2.2.2.2.2.1
      (.lib "worktree not available") rfl rfl rfl).2⟩

/-- Instance of C7: `PlainOpen` fails after a clean `createTestRepo`. -/
theorem main_exit_skips_cleanup_witness :
    (main (envFailAt 11 "repository does not exist") (World.start [])).trace.filter
        Op.isRemoveAll = []
    ∧ (main (envFailAt 11 "repository does not exist") (World.start [])).exited = some 1
    ∧ "/tmp/git-test-1" ∈ (main (envFailAt 11 "repository does not exist") (World.start [])).dirs :=
  main_exit_skips_cleanup (envFailAt 11 "repository does not exist") []
    (envFailAt_before 11 _) (Or.inl (by decide))

/-- Instance of C8: the first `Add` fails. -/
theorem createTestRepo_stops_at_first_failure_witness :
    (envFailAt 4 "entry not found").fail 4 = some (.lib "entry not found")
    ∧ (createTestRepo (envFailAt 4 "entry not found") (World.start [])).2.calls = 4 + 1 :=
  ⟨rfl, (createTestRepo_stops_at_first_failure (envFailAt 4 "entry not found") [] 4
    (.lib "entry not found") (by decide) (envFailAt_before 4 _) (envFailAt_at 4 _)).2.1⟩

/-- Instance of C9: the commit fails, `RemoveAll` succeeds, and the directory
and the files written below it are gone while the other files remain. -/
theorem createTestRepo_cleanup_witness :
    (createTestRepo (envFailAt 7 "cannot commit") (World.start otherFiles)).2.trace.getLast?
      = some (Op.RemoveAll "/tmp/git-test-1")
    ∧ "/tmp/git-test-1" ∉ (createTestRepo (envFailAt 7 "cannot commit")
        (World.start otherFiles)).2.dirs
    ∧ (createTestRepo (envFailAt 7 "cannot commit") (World.start otherFiles)).2.files
      = otherFiles.filter (outside "/tmp/git-test-1") :=
  ⟨((createTestRepo_cleanup (envFailAt 7 "cannot commit") otherFiles).1 7 (.lib "cannot commit")
      (by decide) (by decide) (envFailAt_before 7 _) (envFailAt_at 7 _)).1,
   (((createTestRepo_cleanup (envFailAt 7 "cannot commit") otherFiles).1 7 (.lib "cannot commit")
      (by decide) (by decide) (envFailAt_before 7 _) (envFailAt_at 7 _)).2.2 rfl).1,
   (((createTestRepo_cleanup (envFailAt 7 "cannot commit") otherFiles).1 7 (.lib "cannot commit")
      (by decide) (by decide) (envFailAt_before 7 _) (envFailAt_at 7 _)).2.2 rfl).2.2.1⟩

/-- Instance of C10: the other order of both maps. -/
theorem createTestRepo_order_independent_witness :
    (createTestRepo (envClean.withOrder false true) (World.start otherFiles)).2.files
      = (createTestRepo envClean (World.start otherFiles)).2.files :=
  (createTestRepo_order_independent envClean otherFiles envClean_ok otherFiles_outside
    false true).2.2.2.1

end DiffExample
